import Mathlib

/-!
# Verification of `watch/inotify.go`

A shallow embedding of `InotifyFileWatcher.BlockUntilExists` and
`InotifyFileWatcher.ChangeEvents`.

Both functions wait in a `select` over the raw event channel `fw.w.Event` and
the cancellation channel `t.Dying()`.  The embedding is driven by a script:
the list of outcomes of the successive `select` statements.  A loop that has
consumed the whole script is `blocked` in its `select`; it has neither returned
nor produced anything more.  Which cases a `select` can take at a given moment
is described by `readyCases`: Go takes any ready case, without priority.

Calls to the collaborators (`os.Stat`, `log.Printf`, the `Notify*` methods of
`FileChanges`, the deferred `Close` and `RemoveWatch`) are recorded, in program
order, in a trace of `Effect`s.
-/

namespace Watch

/-! ## Time (`time.Time`, `time.Duration`) -/

/-- Values of `time.Duration`: a count of nanoseconds held in an `int64`. -/
abbrev Duration := Int

def Nanosecond : Duration := 1
def Microsecond : Duration := 1000 * Nanosecond
def Millisecond : Duration := 1000 * Microsecond
def Second : Duration := 1000 * Millisecond
def Minute : Duration := 60 * Second
def Hour : Duration := 60 * Minute

/-- The least `time.Duration`, `-1 << 63`. -/
def minDuration : Duration := -(2 ^ 63)

/-- The greatest `time.Duration`, `1<<63 - 1`. -/
def maxDuration : Duration := 2 ^ 63 - 1

/-- An instant (`time.Time` without monotonic reading, as `FileInfo.ModTime`
returns it), counted in nanoseconds from a fixed origin. -/
structure Time where
  nanos : Int
  deriving DecidableEq, Repr

/-- The method `t.Add(d)`. -/
def Time.Add (t : Time) (d : Duration) : Time := ⟨t.nanos + d⟩

/-- The method `t.Sub(u)`: the duration `t - u`, and the greatest (least) duration when the
difference exceeds what a `Duration` can hold. -/
def Time.Sub (t u : Time) : Duration :=
  let d := t.nanos - u.nanos
  if d < minDuration then minDuration
  else if maxDuration < d then maxDuration
  else d

/-! ## Constants of the package -/

/-- The constant `headerSize = 4 * 1024`. -/
def headerSize : Int := 4 * 1024

/-- The constant `logrotateTime = 24*time.Hour - 5*time.Minute`. -/
def logrotateTime : Duration := 24 * Hour - 5 * Minute

/-! ## Errors, `os.Stat`, raw events -/

/-- The `error` values that occur: `tomb.ErrDying`, an error made by
`fmt.Errorf`, an operating-system error for which `os.IsNotExist` holds, and
any other error of the operating system or a library. -/
inductive GoError where
  | ErrDying
  | Errorf (msg : String)
  | NotExist
  | Other (code : Nat)
  deriving DecidableEq, Repr

/-- The test `os.IsNotExist(err)`; `none` is the `nil` error. -/
def IsNotExist : Option GoError → Bool
  | some .NotExist => true
  | _ => false

/-- The part of `os.FileInfo` the watcher reads. -/
structure FileInfo where
  Size : Int
  ModTime : Time
  deriving DecidableEq, Repr

/-- The pair `(fi, err)` that `os.Stat` returns. -/
abbrev StatResult := Except GoError FileInfo

/-- The `err` component of a stat result (`nil` on success). -/
def StatResult.err : StatResult → Option GoError
  | .ok _ => none
  | .error e => some e

/-- A raw `fsnotify.FileEvent`: its name and what its category methods
`IsDelete()`, `IsRename()`, `IsModify()` answer.  One event may belong to
several categories. -/
structure FileEvent where
  Name : String
  IsDelete : Bool
  IsRename : Bool
  IsModify : Bool
  deriving DecidableEq, Repr

/-- Outcome of one `select` over `fw.w.Event` and `t.Dying()`. -/
inductive Recv where
  /-- the case `evt, ok := <-fw.w.Event` with `ok = true` -/
  | event (evt : FileEvent)
  /-- the case `evt, ok := <-fw.w.Event` with `ok = false`: the channel is closed -/
  | closed
  /-- the case `<-t.Dying()` -/
  | dying
  deriving DecidableEq, Repr

/-- One iteration's worth of environment for `ChangeEvents`: the outcome of the
`select`, and what `os.Stat(fw.Filename)` answers if it is called during this
iteration. -/
structure Tick where
  recv : Recv
  stat : StatResult

/-! ## Notifications and effects -/

/-- Modelled from the spec: the type `FileChanges` and its methods
`NotifyDeleted`, `NotifyTruncated`, `NotifyModified` are declared outside
`inotify.go`.  The spec describes a notification as "a tagged variant with
exactly one active case per emission: `Deleted`, `Truncated`, `Modified`",
carrying no payload, delivered on a "single-producer, ordered-delivery
sequence".  A call of `changes.NotifyX()` is the emission of `X`. -/
inductive Notification where
  | Deleted
  | Truncated
  | Modified
  deriving DecidableEq, Repr

/-- The calls a watcher makes to its collaborators. -/
inductive Effect where
  /-- call of `fw.w.WatchFlags(dirname, fsnotify.FSN_CREATE)` -/
  | watchFlags
  /-- call of `fw.w.Watch(fw.Filename)` -/
  | watch
  /-- call of `os.Stat(fw.Filename)` -/
  | stat
  /-- call of `log.Printf(...)` -/
  | log
  /-- call of `changes.NotifyDeleted()`, `changes.NotifyTruncated()` or
  `changes.NotifyModified()` -/
  | notify (n : Notification)
  /-- the deferred `changes.Close()` -/
  | close
  /-- the deferred `fw.w.RemoveWatch(...)` -/
  | removeWatch
  deriving DecidableEq, Repr

/-- The notifications emitted along a trace, in order. -/
def notifications : List Effect → List Notification
  | [] => []
  | .notify n :: es => n :: notifications es
  | _ :: es => notifications es

/-- How many times `os.Stat` is called along a trace. -/
def statCalls : List Effect → Nat
  | [] => 0
  | .stat :: es => statCalls es + 1
  | _ :: es => statCalls es

/-! ## The watcher -/

/-- The struct `InotifyFileWatcher`.  The field `w *fsnotify.Watcher` is the source of the
raw events; its channel is represented by the script. -/
structure InotifyFileWatcher where
  Filename : String
  Size : Int
  ModTime : Time
  deriving DecidableEq, Repr

/-- The constructor `NewInotifyFileWatcher`: size `0` and the zero `time.Time`. -/
def NewInotifyFileWatcher (filename : String) (zeroTime : Time) : InotifyFileWatcher :=
  ⟨filename, 0, zeroTime⟩

/-! ## `BlockUntilExists` -/

/-- How a call (or goroutine) stands once the script is used up. -/
inductive Outcome (α : Type) where
  /-- waiting in `select`; nothing has been returned -/
  | blocked
  /-- the function returned this value -/
  | returned (val : α)
  /-- the process was ended by `util.Fatal` -/
  | fatal (err : GoError)
  deriving DecidableEq, Repr

/-- Result of running `BlockUntilExists` against a script. -/
structure BlockRun where
  /-- the returned `error` (`none` is `nil`), or `blocked` -/
  out : Outcome (Option GoError)
  /-- calls made, in order -/
  trace : List Effect
  /-- what is left unread on `fw.w.Event` / `t.Dying()` -/
  pending : List Recv
  deriving DecidableEq, Repr

/-- The `for { select { ... } }` loop of `BlockUntilExists` (lines 52-72).
`abs` is `filepath.Abs`.  Returns the outcome and the unread part of the
script. -/
def waitLoop (abs : String → Except GoError String) (fw : InotifyFileWatcher) :
    List Recv → Outcome (Option GoError) × List Recv
  | [] => (.blocked, [])
  | .closed :: rs => (.returned (some (.Errorf "inotify watcher has been closed")), rs)
  | .dying :: rs => (.returned (some .ErrDying), rs)
  | .event evt :: rs =>
    match abs evt.Name with
    | .error err => (.returned (some err), rs)
    | .ok evtName =>
      match abs fw.Filename with
      | .error err => (.returned (some err), rs)
      | .ok fwFilename =>
        if evtName = fwFilename then (.returned none, rs)
        else waitLoop abs fw rs

/-- The method `BlockUntilExists`.  `watchFlagsErr` is what `fw.w.WatchFlags` returns,
`stat` what `os.Stat(fw.Filename)` returns, `script` the successive `select`
outcomes.  The deferred `RemoveWatch` runs on every return after a successful
subscription. -/
def BlockUntilExists (abs : String → Except GoError String) (fw : InotifyFileWatcher)
    (watchFlagsErr : Option GoError) (stat : StatResult) (script : List Recv) : BlockRun :=
  match watchFlagsErr with
  | some err => ⟨.returned (some err), [.watchFlags], script⟩
  | none =>
    let err := StatResult.err stat
    if !IsNotExist err then
      -- file exists, or stat returned an error.
      ⟨.returned err, [.watchFlags, .stat, .removeWatch], script⟩
    else
      let r := waitLoop abs fw script
      match r.1 with
      | .blocked => ⟨r.1, [.watchFlags, .stat], r.2⟩
      | _ => ⟨r.1, [.watchFlags, .stat, .removeWatch], r.2⟩

/-! ## `ChangeEvents` -/

/-- What the loop does after one pass through its body. -/
inductive Control where
  /-- next iteration (`continue`, or the end of the `switch`) -/
  | next
  /-- `return` from the goroutine -/
  | ret
  /-- `util.Fatal` was called with this error -/
  | fatal (err : GoError)
  deriving DecidableEq, Repr

/-- Modelled from the spec: `util.Fatal` belongs to the package `util`, outside
`inotify.go`.  The spec (design notes) says of it: "The origin behavior
terminates the whole process on some stat failures": the call does not
return, nothing after it runs, the deferred calls included. -/
def utilFatal (err : GoError) : Control := .fatal err

/-- One pass through the loop body: the watcher afterwards, the calls made,
and how the loop goes on. -/
structure Pass where
  fw : InotifyFileWatcher
  effects : List Effect
  ctl : Control
  deriving DecidableEq, Repr

/-- The body of the `for` loop of the goroutine (lines 92-138) for one
`select` outcome.  `prevSize` is read from `fw.Size` at the top of every pass;
the assignment `prevSize = fw.Size` that ends the modify case (line 137) is
overwritten there before it is read, so it has no counterpart here. -/
def loopBody (fw : InotifyFileWatcher) (t : Tick) : Pass :=
  let prevSize := fw.Size
  match t.recv with
  | .closed => ⟨fw, [], .ret⟩
  | .dying => ⟨fw, [], .ret⟩
  | .event evt =>
    if evt.IsDelete then
      -- fallthrough
      ⟨fw, [.notify .Deleted], .next⟩
    else if evt.IsRename then
      ⟨fw, [.notify .Deleted], .next⟩
    else if evt.IsModify then
      match t.stat with
      | .error err =>
        if IsNotExist (some err) then
          ⟨fw, [.stat, .notify .Deleted], .ret⟩
        else
          ⟨fw, [.stat], utilFatal err⟩
      | .ok fi =>
        let fw1 : InotifyFileWatcher := { fw with Size := fi.Size }
        if prevSize > 0 ∧ prevSize > fw1.Size then
          ⟨fw1, [.stat, .log, .notify .Truncated], .next⟩
        else if prevSize > 0 ∧ prevSize = fw1.Size ∧ fw1.Size ≤ headerSize
            ∧ fi.ModTime.Sub fw1.ModTime > logrotateTime then
          ⟨fw1, [.stat, .log, .notify .Truncated], .next⟩
        else
          ⟨fw1, [.stat, .notify .Modified], .next⟩
    else
      ⟨fw, [], .next⟩

/-- Result of running the goroutine of `ChangeEvents` against a script. -/
structure Run where
  /-- the watcher's fields at the end -/
  fw : InotifyFileWatcher
  /-- calls made, in order -/
  trace : List Effect
  /-- `blocked` in `select`, `returned`, or ended by `util.Fatal` -/
  out : Outcome Unit
  /-- what is left unread of the script -/
  pending : List Tick

/-- The goroutine of `ChangeEvents` (lines 87-140).  On `return` the deferred
`changes.Close()` and `fw.w.RemoveWatch(fw.Filename)` run, in that order. -/
def eventLoop (fw : InotifyFileWatcher) : List Tick → Run
  | [] => ⟨fw, [], .blocked, []⟩
  | t :: ts =>
    let p := loopBody fw t
    match p.ctl with
    | .next =>
      let r := eventLoop p.fw ts
      ⟨r.fw, p.effects ++ r.trace, r.out, r.pending⟩
    | .ret => ⟨p.fw, p.effects ++ [.close, .removeWatch], .returned (), ts⟩
    | .fatal err => ⟨p.fw, p.effects, .fatal err, ts⟩

/-- The method `ChangeEvents`: subscribe, seed `Size` and `ModTime` from the caller's
`FileInfo`, run the goroutine.  `watchErr` is what `fw.w.Watch` returns. -/
def ChangeEvents (fw : InotifyFileWatcher) (watchErr : Option GoError) (fi : FileInfo)
    (script : List Tick) : Run :=
  match watchErr with
  | some err => ⟨fw, [.watch], .fatal err, script⟩
  | none =>
    let fw0 : InotifyFileWatcher := { fw with Size := fi.Size, ModTime := fi.ModTime }
    let r := eventLoop fw0 script
    ⟨r.fw, .watch :: r.trace, r.out, r.pending⟩

/-! ## The `select` statement and the channels it reads -/

/-- What the two channels of the `select` statements (lines 53-71 and 97-104)
hold at a given moment. -/
structure Channels where
  /-- the tomb is dying: `t.Dying()` is closed, and stays so -/
  dying : Bool
  /-- raw events sent on `fw.w.Event` and not yet received, oldest first -/
  queued : List FileEvent
  /-- the channel `fw.w.Event` has been closed -/
  closed : Bool
  deriving DecidableEq, Repr

/-- The cases of the `select` that can proceed.  Go takes any one of them, with
no preference for the order in which they are written; when none can proceed
the `select` waits. -/
def readyCases (c : Channels) : List Recv :=
  (match c.queued with
    | evt :: _ => [.event evt]
    | [] => if c.closed then [.closed] else []) ++
  (if c.dying then [.dying] else [])

/-- Something that happens to the channels, in the order of time. -/
inductive Happening where
  /-- the caller kills the tomb: the cancellation token is raised -/
  | raise
  /-- a raw event arrives on `fw.w.Event` -/
  | arrive (evt : FileEvent)
  /-- the channel `fw.w.Event` is closed -/
  | close
  /-- the `select` of the watcher proceeds with this case -/
  | take (r : Recv)
  deriving DecidableEq, Repr

/-- The channels after one happening; `none` when it cannot happen (a `select`
taking a case that is not ready, an event sent on a closed channel). -/
def Channels.step (c : Channels) : Happening → Option Channels
  | .raise => some { c with dying := true }
  | .arrive evt => if c.closed then none else some { c with queued := c.queued ++ [evt] }
  | .close => some { c with closed := true }
  | .take r =>
    if r ∈ readyCases c then
      some (match r with
        | .event _ => { c with queued := c.queued.tail }
        | _ => c)
    else none

/-- Whether a timeline can happen from the channels `c`. -/
def canHappen (c : Channels) : List Happening → Bool
  | [] => true
  | h :: hs =>
    match c.step h with
    | none => false
    | some c1 => canHappen c1 hs

/-- The script of a timeline: the cases its `select`s take, in order. -/
def taken : List Happening → List Recv
  | [] => []
  | .take r :: hs => r :: taken hs
  | _ :: hs => taken hs

/-! ## The classification in the words of the specification -/

/-- The classification of section 4.2, step 4 of the specification, first
match wins: (a) `prevSize > 0 AND prevSize > newSize` gives `Truncated`;
(b) `prevSize > 0 AND prevSize == newSize AND newSize <= headerThreshold AND
(newModTime − lastModTime) > rotationWindow` gives `Truncated`, with the
reference values 4 KiB and 23h55m; otherwise `Modified`.  The elapsed time is
the exact difference of the two instants. -/
def specClassify (prevSize newSize : Int) (newModTime lastModTime : Time) : Notification :=
  if prevSize > 0 ∧ prevSize > newSize then .Truncated
  else if prevSize > 0 ∧ prevSize = newSize ∧ newSize ≤ 4096
      ∧ newModTime.nanos - lastModTime.nanos > (23 * 3600 + 55 * 60) * 10 ^ 9 then .Truncated
  else .Modified

/-- The notification of one raw event in the words of the specification
(section 4.2, steps 2 to 4), with `prevSize` and `lastModTime` the tracked
values: delete or rename gives `Deleted`; modify gives `Deleted` when the check
reports "not found", nothing when the check fails otherwise, and the
classification of step 4 when it succeeds; every other category gives
nothing. -/
def specEventNotification (prevSize : Int) (lastModTime : Time) (evt : FileEvent)
    (stat : StatResult) : Option Notification :=
  if evt.IsDelete ∨ evt.IsRename then some .Deleted
  else if evt.IsModify then
    match stat with
    | .ok fi => some (specClassify prevSize fi.Size fi.ModTime lastModTime)
    | .error err => if IsNotExist (some err) then some .Deleted else none
  else none

/-- Whether, by the specification, the sequence goes on after a raw event:
always after delete, rename and the ignored categories; after modify only when
the check succeeds. -/
def specEventContinues (evt : FileEvent) (stat : StatResult) : Bool :=
  if evt.IsDelete ∨ evt.IsRename then true
  else if evt.IsModify then
    match stat with
    | .ok _ => true
    | .error _ => false
  else true

/-- The tracked size after a raw event, by the specification:
`lastSize := newSize` after a modify event whose check succeeds, unchanged
otherwise. -/
def specEventSize (prevSize : Int) (evt : FileEvent) (stat : StatResult) : Int :=
  if evt.IsDelete ∨ evt.IsRename then prevSize
  else if evt.IsModify then
    match stat with
    | .ok fi => fi.Size
    | .error _ => prevSize
  else prevSize

/-- The whole notification sequence of a script by the specification: each raw
event contributes its notification, in the order of the events, as long as the
sequence goes on; a closed event source or a raised token ends it. -/
def specSequence (prevSize : Int) (lastModTime : Time) : List Tick → List Notification
  | [] => []
  | t :: ts =>
    match t.recv with
    | .closed => []
    | .dying => []
    | .event evt =>
      (specEventNotification prevSize lastModTime evt t.stat).toList ++
        (if specEventContinues evt t.stat then
          specSequence (specEventSize prevSize evt t.stat) lastModTime ts
        else [])

/-! ## Auxiliary lemmas -/

theorem notifications_append (xs ys : List Effect) :
    notifications (xs ++ ys) = notifications xs ++ notifications ys := by
  induction xs with
  | nil => rfl
  | cons x xs ih => cases x <;> simp [notifications, ih]

theorem statCalls_append (xs ys : List Effect) :
    statCalls (xs ++ ys) = statCalls xs + statCalls ys := by
  induction xs with
  | nil => simp [statCalls]
  | cons x xs ih => cases x <;> simp [statCalls, ih]; omega

theorem logrotateTime_eq : logrotateTime = 86100000000000 := by
  decide

/-- Saturation of `Time.Sub` does not change the comparison with
`logrotateTime`. -/
theorem sub_gt_logrotateTime (t u : Time) :
    t.Sub u > logrotateTime ↔ t.nanos - u.nanos > 86100000000000 := by
  rw [logrotateTime_eq]
  unfold Time.Sub minDuration maxDuration Duration
  simp only []
  split_ifs with h1 h2
  · constructor <;> intro h
    · norm_num at h
    · norm_num at h1; omega
  · constructor <;> intro h
    · norm_num at h2; omega
    · norm_num
  · exact Iff.rfl

/-- The goroutine on a script of one entry. -/
theorem eventLoop_single (fw : InotifyFileWatcher) (t : Tick) (ts : List Tick) :
    eventLoop fw (t :: ts) =
      match (loopBody fw t).ctl with
      | .next =>
        ⟨(eventLoop (loopBody fw t).fw ts).fw,
         (loopBody fw t).effects ++ (eventLoop (loopBody fw t).fw ts).trace,
         (eventLoop (loopBody fw t).fw ts).out, (eventLoop (loopBody fw t).fw ts).pending⟩
      | .ret => ⟨(loopBody fw t).fw, (loopBody fw t).effects ++ [.close, .removeWatch],
                 .returned (), ts⟩
      | .fatal err => ⟨(loopBody fw t).fw, (loopBody fw t).effects, .fatal err, ts⟩ := by
  simp only [eventLoop]

/-- While the goroutine is still waiting after `pre`, running it on
`pre ++ ts` is running it on `ts` from the state reached after `pre`. -/
theorem eventLoop_append (fw : InotifyFileWatcher) (pre ts : List Tick)
    (h : (eventLoop fw pre).out = .blocked) :
    eventLoop fw (pre ++ ts) =
      ⟨(eventLoop (eventLoop fw pre).fw ts).fw,
       (eventLoop fw pre).trace ++ (eventLoop (eventLoop fw pre).fw ts).trace,
       (eventLoop (eventLoop fw pre).fw ts).out,
       (eventLoop (eventLoop fw pre).fw ts).pending⟩ := by
  induction pre generalizing fw with
  | nil => simp [eventLoop]
  | cons t pre ih =>
    rw [eventLoop_single] at h
    cases hc : (loopBody fw t).ctl with
    | next =>
      have e1 : ∀ us, eventLoop fw (t :: us) =
          ⟨(eventLoop (loopBody fw t).fw us).fw,
           (loopBody fw t).effects ++ (eventLoop (loopBody fw t).fw us).trace,
           (eventLoop (loopBody fw t).fw us).out, (eventLoop (loopBody fw t).fw us).pending⟩ := by
        intro us
        rw [eventLoop_single]
        simp only [hc]
      simp only [hc] at h
      rw [List.cons_append, e1, e1, ih _ h]
      simp [List.append_assoc]
    | ret => simp [hc] at h
    | fatal e => simp [hc] at h

/-- Once the goroutine has ended, further script entries stay unread. -/
theorem eventLoop_append_done (fw : InotifyFileWatcher) (pre ts : List Tick)
    (h : (eventLoop fw pre).out ≠ .blocked) :
    eventLoop fw (pre ++ ts) =
      ⟨(eventLoop fw pre).fw, (eventLoop fw pre).trace, (eventLoop fw pre).out,
       (eventLoop fw pre).pending ++ ts⟩ := by
  induction pre generalizing fw with
  | nil => simp [eventLoop] at h
  | cons t pre ih =>
    rw [List.cons_append, eventLoop_single, eventLoop_single]
    rw [eventLoop_single] at h
    cases hc : (loopBody fw t).ctl with
    | next =>
      simp only [hc] at h ⊢
      rw [ih _ h]
    | ret => simp
    | fatal e => simp

/-- The run of `ChangeEvents` with a successful subscription, split at a point
where the goroutine is still waiting. -/
theorem ChangeEvents_append (fw : InotifyFileWatcher) (fi0 : FileInfo) (pre ts : List Tick)
    (h : (ChangeEvents fw none fi0 pre).out = .blocked) :
    ChangeEvents fw none fi0 (pre ++ ts) =
      ⟨(eventLoop (ChangeEvents fw none fi0 pre).fw ts).fw,
       (ChangeEvents fw none fi0 pre).trace ++ (eventLoop (ChangeEvents fw none fi0 pre).fw ts).trace,
       (eventLoop (ChangeEvents fw none fi0 pre).fw ts).out,
       (eventLoop (ChangeEvents fw none fi0 pre).fw ts).pending⟩ := by
  simp only [ChangeEvents] at h ⊢
  rw [eventLoop_append _ _ _ h]
  simp

/-- The run of `ChangeEvents` after the goroutine has ended. -/
theorem ChangeEvents_append_done (fw : InotifyFileWatcher) (fi0 : FileInfo) (pre ts : List Tick)
    (h : (ChangeEvents fw none fi0 pre).out ≠ .blocked) :
    ChangeEvents fw none fi0 (pre ++ ts) =
      ⟨(ChangeEvents fw none fi0 pre).fw, (ChangeEvents fw none fi0 pre).trace,
       (ChangeEvents fw none fi0 pre).out, (ChangeEvents fw none fi0 pre).pending ++ ts⟩ := by
  simp only [ChangeEvents] at h ⊢
  rw [eventLoop_append_done _ _ _ h]

/-- A modify event (not also a delete or rename event) whose stat succeeds:
the size is stored, `os.Stat` is called once, one notification is emitted and
it is the one the specification's classification names. -/
theorem loopBody_modify_ok (fw : InotifyFileWatcher) (evt : FileEvent) (fi : FileInfo)
    (hd : evt.IsDelete = false) (hr : evt.IsRename = false) (hm : evt.IsModify = true) :
    (loopBody fw ⟨.event evt, .ok fi⟩).fw = { fw with Size := fi.Size } ∧
    (loopBody fw ⟨.event evt, .ok fi⟩).ctl = .next ∧
    notifications (loopBody fw ⟨.event evt, .ok fi⟩).effects
      = [specClassify fw.Size fi.Size fi.ModTime fw.ModTime] ∧
    statCalls (loopBody fw ⟨.event evt, .ok fi⟩).effects = 1 := by
  have hs := sub_gt_logrotateTime fi.ModTime fw.ModTime
  have hh : headerSize = 4096 := by decide
  simp only [loopBody, hd, hr, hm, specClassify, hh, hs]
  norm_num
  split_ifs <;> simp_all [notifications, statCalls]

/-- A delete or rename event: `Deleted` is emitted, nothing else happens and
the loop goes on. -/
theorem loopBody_delete_rename (fw : InotifyFileWatcher) (evt : FileEvent) (st : StatResult)
    (h : evt.IsDelete = true ∨ evt.IsRename = true) :
    loopBody fw ⟨.event evt, st⟩ = ⟨fw, [.notify .Deleted], .next⟩ := by
  rcases h with h | h
  · simp [loopBody, h]
  · cases hd : evt.IsDelete <;> simp [loopBody, h, hd]

/-- Every pass through the loop body emits at most one notification. -/
theorem loopBody_notifications_le_one (fw : InotifyFileWatcher) (t : Tick) :
    (notifications (loopBody fw t).effects).length ≤ 1 := by
  obtain ⟨recv, st⟩ := t
  cases recv with
  | closed => simp [loopBody, notifications]
  | dying => simp [loopBody, notifications]
  | event evt =>
    simp only [loopBody]
    cases st with
    | error err =>
      simp only [utilFatal]
      split_ifs <;> simp [notifications]
    | ok fi =>
      simp only []
      split_ifs <;> simp [notifications]

/-- No pass through the loop body changes `ModTime` or `Filename`. -/
theorem loopBody_ModTime (fw : InotifyFileWatcher) (t : Tick) :
    (loopBody fw t).fw.ModTime = fw.ModTime := by
  obtain ⟨recv, st⟩ := t
  cases recv with
  | closed => simp [loopBody]
  | dying => simp [loopBody]
  | event evt =>
    simp only [loopBody]
    cases st with
    | error err =>
      simp only [utilFatal]
      split_ifs <;> simp
    | ok fi =>
      simp only []
      split_ifs <;> simp

theorem eventLoop_ModTime (fw : InotifyFileWatcher) (script : List Tick) :
    (eventLoop fw script).fw.ModTime = fw.ModTime := by
  induction script generalizing fw with
  | nil => simp [eventLoop]
  | cons t ts ih =>
    rw [eventLoop_single]
    cases hc : (loopBody fw t).ctl with
    | next => simp only []; rw [ih, loopBody_ModTime]
    | ret => simp only []; rw [loopBody_ModTime]
    | fatal e => simp only []; rw [loopBody_ModTime]

/-- The goroutine on one modify event whose stat succeeds. -/
theorem eventLoop_modify_ok (fw : InotifyFileWatcher) (evt : FileEvent) (fi : FileInfo)
    (hd : evt.IsDelete = false) (hr : evt.IsRename = false) (hm : evt.IsModify = true) :
    (eventLoop fw [⟨.event evt, .ok fi⟩]).fw = { fw with Size := fi.Size } ∧
    (eventLoop fw [⟨.event evt, .ok fi⟩]).out = .blocked ∧
    notifications (eventLoop fw [⟨.event evt, .ok fi⟩]).trace
      = [specClassify fw.Size fi.Size fi.ModTime fw.ModTime] ∧
    statCalls (eventLoop fw [⟨.event evt, .ok fi⟩]).trace = 1 := by
  obtain ⟨h1, h2, h3, h4⟩ := loopBody_modify_ok fw evt fi hd hr hm
  rw [eventLoop_single]
  simp only [h2, eventLoop, List.append_nil]
  exact ⟨h1, trivial, h3, h4⟩

/-- The specification's classification is `Truncated` exactly under the
condition (a) or (b), and `Modified` otherwise. -/
theorem specClassify_truncated_iff (prevSize newSize : Int) (newModTime lastModTime : Time) :
    specClassify prevSize newSize newModTime lastModTime = .Truncated ↔
      ((prevSize > 0 ∧ prevSize > newSize) ∨
       (prevSize > 0 ∧ prevSize = newSize ∧ newSize ≤ 4096
         ∧ newModTime.nanos - lastModTime.nanos > (23 * 3600 + 55 * 60) * 10 ^ 9)) := by
  unfold specClassify
  split_ifs with h1 h2
  · simp [h1]
  · simp only [true_iff]; exact Or.inr h2
  · simp only [false_iff, reduceCtorEq]
    rintro (h | h)
    · exact h1 h
    · exact h2 h

theorem specClassify_modified_iff (prevSize newSize : Int) (newModTime lastModTime : Time) :
    specClassify prevSize newSize newModTime lastModTime = .Modified ↔
      ¬ ((prevSize > 0 ∧ prevSize > newSize) ∨
       (prevSize > 0 ∧ prevSize = newSize ∧ newSize ≤ 4096
         ∧ newModTime.nanos - lastModTime.nanos > (23 * 3600 + 55 * 60) * 10 ^ 9)) := by
  rw [← specClassify_truncated_iff]
  unfold specClassify
  split_ifs <;> simp

/-- The goroutine on one delete or rename event. -/
theorem eventLoop_delete_rename (fw : InotifyFileWatcher) (evt : FileEvent) (st : StatResult)
    (h : evt.IsDelete = true ∨ evt.IsRename = true) (ts : List Tick) :
    eventLoop fw (⟨.event evt, st⟩ :: ts) =
      ⟨(eventLoop fw ts).fw, [.notify .Deleted] ++ (eventLoop fw ts).trace,
       (eventLoop fw ts).out, (eventLoop fw ts).pending⟩ := by
  rw [eventLoop_single, loopBody_delete_rename fw evt st h]

/-- The goroutine emits at most one notification per script entry. -/
theorem eventLoop_notifications_length (fw : InotifyFileWatcher) (script : List Tick) :
    (notifications (eventLoop fw script).trace).length ≤ script.length := by
  induction script generalizing fw with
  | nil => simp [eventLoop, notifications]
  | cons t ts ih =>
    have h1 := loopBody_notifications_le_one fw t
    rw [eventLoop_single]
    cases hc : (loopBody fw t).ctl with
    | next =>
      simp only [notifications_append, List.length_append, List.length_cons]
      have := ih (loopBody fw t).fw
      omega
    | ret =>
      simp only [notifications_append, List.length_append, List.length_cons, notifications,
        List.length_nil]
      omega
    | fatal e =>
      simp only [List.length_cons]
      omega

/-- The goroutine on a modify event whose stat reports "not found": `Deleted`,
then `return` and the deferred calls; the rest of the script stays unread. -/
theorem eventLoop_modify_notExist (fw : InotifyFileWatcher) (evt : FileEvent) (err : GoError)
    (hd : evt.IsDelete = false) (hr : evt.IsRename = false) (hm : evt.IsModify = true)
    (hne : IsNotExist (some err) = true) (rest : List Tick) :
    eventLoop fw (⟨.event evt, .error err⟩ :: rest) =
      ⟨fw, [.stat, .notify .Deleted, .close, .removeWatch], .returned (), rest⟩ := by
  rw [eventLoop_single]
  simp [loopBody, hd, hr, hm, hne]

/-- The goroutine on a modify event whose stat fails otherwise: `util.Fatal`;
the rest of the script stays unread and no deferred call runs. -/
theorem eventLoop_modify_fatal (fw : InotifyFileWatcher) (evt : FileEvent) (err : GoError)
    (hd : evt.IsDelete = false) (hr : evt.IsRename = false) (hm : evt.IsModify = true)
    (hne : IsNotExist (some err) = false) (rest : List Tick) :
    eventLoop fw (⟨.event evt, .error err⟩ :: rest) = ⟨fw, [.stat], .fatal err, rest⟩ := by
  rw [eventLoop_single]
  simp [loopBody, hd, hr, hm, hne, utilFatal]

/-- The goroutine when the event channel is closed or the tomb is dying. -/
theorem eventLoop_closed (fw : InotifyFileWatcher) (st : StatResult) (rest : List Tick) :
    eventLoop fw (⟨.closed, st⟩ :: rest) = ⟨fw, [.close, .removeWatch], .returned (), rest⟩ := by
  rw [eventLoop_single]
  simp [loopBody]

theorem eventLoop_dying (fw : InotifyFileWatcher) (st : StatResult) (rest : List Tick) :
    eventLoop fw (⟨.dying, st⟩ :: rest) = ⟨fw, [.close, .removeWatch], .returned (), rest⟩ := by
  rw [eventLoop_single]
  simp [loopBody]

/-- The goroutine on an event of no handled category. -/
theorem eventLoop_ignored (fw : InotifyFileWatcher) (evt : FileEvent) (st : StatResult)
    (hd : evt.IsDelete = false) (hr : evt.IsRename = false) (hm : evt.IsModify = false)
    (ts : List Tick) :
    eventLoop fw (⟨.event evt, st⟩ :: ts) = eventLoop fw ts := by
  rw [eventLoop_single]
  simp [loopBody, hd, hr, hm]

/-- Events of no handled category, in any number, leave the goroutine where it
was. -/
theorem eventLoop_ignored_list (fw : InotifyFileWatcher) (ign ts : List Tick)
    (hign : ∀ t ∈ ign, ∃ evt, t.recv = .event evt ∧ evt.IsDelete = false ∧
      evt.IsRename = false ∧ evt.IsModify = false) :
    eventLoop fw (ign ++ ts) = eventLoop fw ts := by
  induction ign with
  | nil => rfl
  | cons t ign ih =>
    obtain ⟨evt, he, hd, hr, hm⟩ := hign t (List.mem_cons_self _ _)
    obtain ⟨recv, st⟩ := t
    simp only at he
    subst he
    rw [List.cons_append, eventLoop_ignored _ _ _ hd hr hm]
    exact ih (fun t ht => hign t (List.mem_cons_of_mem _ ht))

/-- The wait loop of `BlockUntilExists` passes over events whose absolute name
is not the absolute target path. -/
theorem waitLoop_skip (abs : String → Except GoError String) (fw : InotifyFileWatcher)
    (tgt : String) (pre : List FileEvent) (rs : List Recv)
    (htgt : abs fw.Filename = .ok tgt)
    (hpre : ∀ e ∈ pre, ∃ a, abs e.Name = .ok a ∧ a ≠ tgt) :
    waitLoop abs fw (pre.map .event ++ rs) = waitLoop abs fw rs := by
  induction pre with
  | nil => rfl
  | cons e pre ih =>
    obtain ⟨a, ha, hne⟩ := hpre e (List.mem_cons_self _ _)
    simp only [List.map_cons, List.cons_append, waitLoop, ha, htgt, if_neg hne]
    exact ih (fun e he => hpre e (List.mem_cons_of_mem _ he))

/-- With a successful subscription and a stat that reports "not found",
`BlockUntilExists` is its wait loop, followed by the deferred `RemoveWatch` when
the loop returns. -/
theorem BlockUntilExists_wait (abs : String → Except GoError String) (fw : InotifyFileWatcher)
    (notFound : GoError) (hnf : IsNotExist (some notFound) = true) (script : List Recv) :
    (BlockUntilExists abs fw none (.error notFound) script).out = (waitLoop abs fw script).1 ∧
    (BlockUntilExists abs fw none (.error notFound) script).pending
      = (waitLoop abs fw script).2 := by
  simp only [BlockUntilExists, StatResult.err, hnf]
  cases h : (waitLoop abs fw script).1 <;> simp [h]

/-- One pass of the loop body on a raw event against the specification: the
notification, whether the loop goes on, and the size stored. -/
theorem loopBody_spec (fw : InotifyFileWatcher) (evt : FileEvent) (st : StatResult) :
    notifications (loopBody fw ⟨.event evt, st⟩).effects
      = (specEventNotification fw.Size fw.ModTime evt st).toList ∧
    ((loopBody fw ⟨.event evt, st⟩).ctl = .next ↔ specEventContinues evt st = true) ∧
    (loopBody fw ⟨.event evt, st⟩).fw.Size = specEventSize fw.Size evt st := by
  by_cases hdr : evt.IsDelete = true ∨ evt.IsRename = true
  · rw [loopBody_delete_rename fw evt st hdr]
    simp [specEventNotification, specEventContinues, specEventSize, hdr, notifications]
  · have hd : evt.IsDelete = false := by
      cases h : evt.IsDelete <;> simp [h] at hdr ⊢
    have hr : evt.IsRename = false := by
      cases h : evt.IsRename <;> simp [h] at hdr ⊢
    cases hm : evt.IsModify with
    | false =>
      simp [loopBody, specEventNotification, specEventContinues, specEventSize, hd, hr, hm,
        notifications]
    | true =>
      cases st with
      | ok fi =>
        obtain ⟨h1, h2, h3, _⟩ := loopBody_modify_ok fw evt fi hd hr hm
        rw [h3, h2, h1]
        simp [specEventNotification, specEventContinues, specEventSize, hd, hr, hm]
      | error err =>
        cases hne : IsNotExist (some err) <;>
          simp [loopBody, specEventNotification, specEventContinues, specEventSize, hd, hr, hm,
            hne, notifications, utilFatal]

/-- The notifications of the goroutine are the sequence the specification
gives, from the tracked size and modification time it starts with. -/
theorem eventLoop_spec (fw : InotifyFileWatcher) (script : List Tick) :
    notifications (eventLoop fw script).trace = specSequence fw.Size fw.ModTime script := by
  induction script generalizing fw with
  | nil => simp [eventLoop, notifications, specSequence]
  | cons t ts ih =>
    obtain ⟨recv, st⟩ := t
    cases recv with
    | closed => rw [eventLoop_closed]; simp [specSequence, notifications]
    | dying => rw [eventLoop_dying]; simp [specSequence, notifications]
    | event evt =>
      obtain ⟨h1, h2, h3⟩ := loopBody_spec fw evt st
      have hmt := loopBody_ModTime fw ⟨.event evt, st⟩
      rw [eventLoop_single]
      simp only [specSequence]
      cases hc : (loopBody fw ⟨.event evt, st⟩).ctl with
      | next =>
        have hcont : specEventContinues evt st = true := h2.mp hc
        simp only [notifications_append, h1, hcont, if_true]
        rw [ih, h3, hmt]
      | ret =>
        have hcont : specEventContinues evt st = false := by
          cases h : specEventContinues evt st
          · rfl
          · rw [h2.mpr h] at hc; cases hc
        simp [notifications_append, h1, hcont, notifications]
      | fatal e =>
        have hcont : specEventContinues evt st = false := by
          cases h : specEventContinues evt st
          · rfl
          · rw [h2.mpr h] at hc; cases hc
        simp [h1, hcont]

/-! ## The claims -/

/-- C1: in `ChangeEvents`, a modify event whose stat succeeds, arriving while the
loop is running, emits exactly one notification `n` after those emitted before;
with `prevSize` the tracked size before the event, `newSize`, `newModTime` the
stat results and `lastModTime` the tracked modification time, `n` is `Truncated`
if and only if `(prevSize > 0 and prevSize > newSize)` or `(prevSize > 0 and
prevSize == newSize and newSize <= 4096 and newModTime - lastModTime > 23h55m)`,
and `Modified` in every other case.  In particular, from size 50 and
modification time `T`: size 50 at `T + 25h` gives `Truncated`, size 50 at
`T + 1h` gives `Modified`; and growth from 100 to 150 gives `Modified`. -/
theorem C1_modify_classification (fw : InotifyFileWatcher) (fi0 : FileInfo) (pre : List Tick)
    (evt : FileEvent) (fi : FileInfo)
    (hrun : (ChangeEvents fw none fi0 pre).out = .blocked)
    (hd : evt.IsDelete = false) (hr : evt.IsRename = false) (hm : evt.IsModify = true) :
    (∃ n : Notification,
      notifications (ChangeEvents fw none fi0 (pre ++ [⟨.event evt, .ok fi⟩])).trace
        = notifications (ChangeEvents fw none fi0 pre).trace ++ [n] ∧
      (n = .Truncated ↔
        (((ChangeEvents fw none fi0 pre).fw.Size > 0
            ∧ (ChangeEvents fw none fi0 pre).fw.Size > fi.Size) ∨
         ((ChangeEvents fw none fi0 pre).fw.Size > 0
            ∧ (ChangeEvents fw none fi0 pre).fw.Size = fi.Size
            ∧ fi.Size ≤ 4096
            ∧ fi.ModTime.nanos - (ChangeEvents fw none fi0 pre).fw.ModTime.nanos
                > (23 * 3600 + 55 * 60) * 10 ^ 9))) ∧
      (n = .Modified ↔
        ¬ (((ChangeEvents fw none fi0 pre).fw.Size > 0
            ∧ (ChangeEvents fw none fi0 pre).fw.Size > fi.Size) ∨
         ((ChangeEvents fw none fi0 pre).fw.Size > 0
            ∧ (ChangeEvents fw none fi0 pre).fw.Size = fi.Size
            ∧ fi.Size ≤ 4096
            ∧ fi.ModTime.nanos - (ChangeEvents fw none fi0 pre).fw.ModTime.nanos
                > (23 * 3600 + 55 * 60) * 10 ^ 9)))) ∧
    (∀ T : Time,
      notifications (ChangeEvents fw none ⟨50, T⟩
          [⟨.event evt, .ok ⟨50, T.Add (25 * Hour)⟩⟩]).trace = [.Truncated] ∧
      notifications (ChangeEvents fw none ⟨50, T⟩
          [⟨.event evt, .ok ⟨50, T.Add (1 * Hour)⟩⟩]).trace = [.Modified]) ∧
    (∀ T T2 : Time,
      notifications (ChangeEvents fw none ⟨100, T⟩
          [⟨.event evt, .ok ⟨150, T2⟩⟩]).trace = [.Modified]) := by
  refine ⟨⟨specClassify (ChangeEvents fw none fi0 pre).fw.Size fi.Size fi.ModTime
      (ChangeEvents fw none fi0 pre).fw.ModTime, ?_, specClassify_truncated_iff _ _ _ _,
      specClassify_modified_iff _ _ _ _⟩, ?_, ?_⟩
  · rw [ChangeEvents_append _ _ _ _ hrun]
    simp only [notifications_append]
    rw [(eventLoop_modify_ok _ evt fi hd hr hm).2.2.1]
  · intro T
    have hH : Hour = 3600000000000 := by decide
    constructor
    · simp only [ChangeEvents, notifications]
      rw [(eventLoop_modify_ok _ evt _ hd hr hm).2.2.1]
      simp only [specClassify, Time.Add, hH]
      rw [if_neg (by omega), if_pos]
      refine ⟨by omega, trivial, by omega, ?_⟩
      norm_num
    · simp only [ChangeEvents, notifications]
      rw [(eventLoop_modify_ok _ evt _ hd hr hm).2.2.1]
      simp only [specClassify, Time.Add, hH]
      rw [if_neg (by omega), if_neg]
      rintro ⟨_, _, _, h⟩
      norm_num at h
  · intro T T2
    simp only [ChangeEvents, notifications]
    rw [(eventLoop_modify_ok _ evt _ hd hr hm).2.2.1]
    simp only [specClassify]
    rw [if_neg (by omega), if_neg (by omega)]

/-- Witness of C1: a watcher seeded with size 50 and modification time 0
receives a modify event; the stat reports size 50, one day and one hour
later. -/
theorem C1_modify_classification_witness :
    notifications (ChangeEvents ⟨"app.log", 0, ⟨0⟩⟩ none ⟨50, ⟨0⟩⟩
        ([] ++ [⟨.event ⟨"app.log", false, false, true⟩,
                 .ok ⟨50, ⟨90000000000000⟩⟩⟩])).trace = [.Truncated] := by
  obtain ⟨⟨n, hn, ht, _⟩, _⟩ :=
    C1_modify_classification ⟨"app.log", 0, ⟨0⟩⟩ ⟨50, ⟨0⟩⟩ []
      ⟨"app.log", false, false, true⟩ ⟨50, ⟨90000000000000⟩⟩ (by decide) rfl rfl rfl
  have h : n = .Truncated := ht.mpr (Or.inr (by decide))
  rw [hn, h]
  decide

/-- C2: in `ChangeEvents`, after a modify event whose stat succeeds, the tracked
size equals the size that stat reported and the loop is still running, whichever
notification was emitted; the next modify event whose stat succeeds is
classified against that size.  From size 1000, a modify event with stat size 200
is `Truncated`, and a following one with stat size 500 is `Modified`: the
previous size is then 200, not 1000. -/
theorem C2_size_follows_stat (fw : InotifyFileWatcher) (fi0 : FileInfo) (pre : List Tick)
    (evt : FileEvent) (fi : FileInfo)
    (hrun : (ChangeEvents fw none fi0 pre).out = .blocked)
    (hd : evt.IsDelete = false) (hr : evt.IsRename = false) (hm : evt.IsModify = true) :
    (ChangeEvents fw none fi0 (pre ++ [⟨.event evt, .ok fi⟩])).fw.Size = fi.Size ∧
    (ChangeEvents fw none fi0 (pre ++ [⟨.event evt, .ok fi⟩])).out = .blocked ∧
    (∀ (evt2 : FileEvent) (fi2 : FileInfo),
      evt2.IsDelete = false → evt2.IsRename = false → evt2.IsModify = true →
      notifications (ChangeEvents fw none fi0
          (pre ++ [⟨.event evt, .ok fi⟩] ++ [⟨.event evt2, .ok fi2⟩])).trace
        = notifications (ChangeEvents fw none fi0 (pre ++ [⟨.event evt, .ok fi⟩])).trace
          ++ [specClassify fi.Size fi2.Size fi2.ModTime
                (ChangeEvents fw none fi0 pre).fw.ModTime]) ∧
    (∀ T T1 T2 : Time,
      notifications (ChangeEvents fw none ⟨1000, T⟩
          [⟨.event evt, .ok ⟨200, T1⟩⟩, ⟨.event evt, .ok ⟨500, T2⟩⟩]).trace
        = [.Truncated, .Modified] ∧
      (ChangeEvents fw none ⟨1000, T⟩ [⟨.event evt, .ok ⟨200, T1⟩⟩]).fw.Size = 200) := by
  have key := eventLoop_modify_ok (ChangeEvents fw none fi0 pre).fw evt fi hd hr hm
  have hsz : (ChangeEvents fw none fi0 (pre ++ [⟨.event evt, .ok fi⟩])).fw.Size = fi.Size := by
    rw [ChangeEvents_append _ _ _ _ hrun]
    simp only [key.1]
  have hout : (ChangeEvents fw none fi0 (pre ++ [⟨.event evt, .ok fi⟩])).out = .blocked := by
    rw [ChangeEvents_append _ _ _ _ hrun]
    exact key.2.1
  have hmt : (ChangeEvents fw none fi0 (pre ++ [⟨.event evt, .ok fi⟩])).fw.ModTime
      = (ChangeEvents fw none fi0 pre).fw.ModTime := by
    rw [ChangeEvents_append _ _ _ _ hrun]
    simp only [key.1]
  refine ⟨hsz, hout, ?_, ?_⟩
  · intro evt2 fi2 hd2 hr2 hm2
    rw [ChangeEvents_append _ _ _ _ hout]
    simp only [notifications_append]
    rw [(eventLoop_modify_ok _ evt2 fi2 hd2 hr2 hm2).2.2.1, hsz, hmt]
  · intro T T1 T2
    constructor
    · have e : ([⟨.event evt, .ok ⟨200, T1⟩⟩, ⟨.event evt, .ok ⟨500, T2⟩⟩] : List Tick)
          = [⟨.event evt, .ok ⟨200, T1⟩⟩] ++ [⟨.event evt, .ok ⟨500, T2⟩⟩] := rfl
      simp only [ChangeEvents, notifications]
      rw [e, eventLoop_append _ _ _ (eventLoop_modify_ok _ evt _ hd hr hm).2.1]
      simp only [notifications_append]
      rw [(eventLoop_modify_ok _ evt _ hd hr hm).2.2.1,
        (eventLoop_modify_ok _ evt _ hd hr hm).2.2.1,
        (eventLoop_modify_ok _ evt _ hd hr hm).1]
      simp only [specClassify]
      rw [if_pos (by omega), if_neg (by omega), if_neg (by omega)]
      rfl
    · simp only [ChangeEvents]
      rw [(eventLoop_modify_ok _ evt _ hd hr hm).1]

/-- Witness of C2: from size 1000, a modify event with stat size 200 leaves the
tracked size at 200. -/
theorem C2_size_follows_stat_witness :
    (ChangeEvents ⟨"app.log", 0, ⟨0⟩⟩ none ⟨1000, ⟨0⟩⟩
        ([] ++ [⟨.event ⟨"app.log", false, false, true⟩, .ok ⟨200, ⟨7⟩⟩⟩])).fw.Size = 200 ∧
    notifications (ChangeEvents ⟨"app.log", 0, ⟨0⟩⟩ none ⟨1000, ⟨0⟩⟩
        [⟨.event ⟨"app.log", false, false, true⟩, .ok ⟨200, ⟨7⟩⟩⟩,
         ⟨.event ⟨"app.log", false, false, true⟩, .ok ⟨500, ⟨9⟩⟩⟩]).trace
      = [.Truncated, .Modified] :=
  have h := C2_size_follows_stat ⟨"app.log", 0, ⟨0⟩⟩ ⟨1000, ⟨0⟩⟩ []
    ⟨"app.log", false, false, true⟩ ⟨200, ⟨7⟩⟩ (by decide) rfl rfl rfl
  ⟨h.1, (h.2.2.2 ⟨0⟩ ⟨7⟩ ⟨9⟩).1⟩

/-- C3: in `ChangeEvents`, a delete-category or rename-category raw event,
arriving while the loop is running, emits exactly one `Deleted`, leaves the loop
running, calls no stat and leaves the watcher (tracked size and modification
time) unchanged; a modify event that follows it is processed and classified
against the previous size from before the delete/rename event. -/
theorem C3_delete_rename_continues (fw : InotifyFileWatcher) (fi0 : FileInfo) (pre : List Tick)
    (evt : FileEvent) (st : StatResult)
    (hrun : (ChangeEvents fw none fi0 pre).out = .blocked)
    (h : evt.IsDelete = true ∨ evt.IsRename = true) :
    notifications (ChangeEvents fw none fi0 (pre ++ [⟨.event evt, st⟩])).trace
      = notifications (ChangeEvents fw none fi0 pre).trace ++ [.Deleted] ∧
    (ChangeEvents fw none fi0 (pre ++ [⟨.event evt, st⟩])).out = .blocked ∧
    statCalls (ChangeEvents fw none fi0 (pre ++ [⟨.event evt, st⟩])).trace
      = statCalls (ChangeEvents fw none fi0 pre).trace ∧
    (ChangeEvents fw none fi0 (pre ++ [⟨.event evt, st⟩])).fw
      = (ChangeEvents fw none fi0 pre).fw ∧
    (∀ (evt2 : FileEvent) (fi2 : FileInfo),
      evt2.IsDelete = false → evt2.IsRename = false → evt2.IsModify = true →
      notifications (ChangeEvents fw none fi0
          (pre ++ [⟨.event evt, st⟩] ++ [⟨.event evt2, .ok fi2⟩])).trace
        = notifications (ChangeEvents fw none fi0 pre).trace ++
            [.Deleted, specClassify (ChangeEvents fw none fi0 pre).fw.Size fi2.Size fi2.ModTime
                (ChangeEvents fw none fi0 pre).fw.ModTime] ∧
      (ChangeEvents fw none fi0
          (pre ++ [⟨.event evt, st⟩] ++ [⟨.event evt2, .ok fi2⟩])).fw.Size = fi2.Size) := by
  have e := eventLoop_delete_rename (ChangeEvents fw none fi0 pre).fw evt st h []
  have hnot : notifications (ChangeEvents fw none fi0 (pre ++ [⟨.event evt, st⟩])).trace
      = notifications (ChangeEvents fw none fi0 pre).trace ++ [.Deleted] := by
    rw [ChangeEvents_append _ _ _ _ hrun, e]
    simp [notifications_append, notifications, eventLoop]
  have hout : (ChangeEvents fw none fi0 (pre ++ [⟨.event evt, st⟩])).out = .blocked := by
    rw [ChangeEvents_append _ _ _ _ hrun, e]
    simp [eventLoop]
  have hfw : (ChangeEvents fw none fi0 (pre ++ [⟨.event evt, st⟩])).fw
      = (ChangeEvents fw none fi0 pre).fw := by
    rw [ChangeEvents_append _ _ _ _ hrun, e]
    simp [eventLoop]
  refine ⟨hnot, hout, ?_, hfw, ?_⟩
  · rw [ChangeEvents_append _ _ _ _ hrun, e]
    simp [statCalls_append, statCalls, eventLoop]
  · intro evt2 fi2 hd2 hr2 hm2
    have k := eventLoop_modify_ok (ChangeEvents fw none fi0 pre).fw evt2 fi2 hd2 hr2 hm2
    rw [ChangeEvents_append _ _ _ _ hout, hfw]
    simp only [notifications_append, hnot, k.2.2.1, k.1]
    simp

/-- Witness of C3: a rename event followed by a modify event, from size 1000. -/
theorem C3_delete_rename_continues_witness :
    notifications (ChangeEvents ⟨"app.log", 0, ⟨0⟩⟩ none ⟨1000, ⟨0⟩⟩
        ([] ++ [⟨.event ⟨"app.log", false, true, true⟩, .error .NotExist⟩]
          ++ [⟨.event ⟨"app.log", false, false, true⟩, .ok ⟨200, ⟨7⟩⟩⟩])).trace
      = notifications (ChangeEvents ⟨"app.log", 0, ⟨0⟩⟩ none ⟨1000, ⟨0⟩⟩ []).trace
          ++ [.Deleted, specClassify (ChangeEvents ⟨"app.log", 0, ⟨0⟩⟩ none ⟨1000, ⟨0⟩⟩ []).fw.Size
                200 ⟨7⟩ (ChangeEvents ⟨"app.log", 0, ⟨0⟩⟩ none ⟨1000, ⟨0⟩⟩ []).fw.ModTime] :=
  ((C3_delete_rename_continues ⟨"app.log", 0, ⟨0⟩⟩ ⟨1000, ⟨0⟩⟩ []
    ⟨"app.log", false, true, true⟩ (.error .NotExist) (by decide) (Or.inr rfl)).2.2.2.2
      ⟨"app.log", false, false, true⟩ ⟨200, ⟨7⟩⟩ rfl rfl rfl).1

/-- C4: in `ChangeEvents`, a modify event whose stat reports "not found",
arriving while the loop is running, emits exactly one `Deleted` and the
goroutine returns: whatever script follows, nothing of it is read, the trace
ends with that `Deleted` and the two deferred calls, and no further
notification is emitted. -/
theorem C4_stat_not_found_terminates (fw : InotifyFileWatcher) (fi0 : FileInfo)
    (pre : List Tick) (evt : FileEvent) (err : GoError) (rest : List Tick)
    (hrun : (ChangeEvents fw none fi0 pre).out = .blocked)
    (hd : evt.IsDelete = false) (hr : evt.IsRename = false) (hm : evt.IsModify = true)
    (hne : IsNotExist (some err) = true) :
    notifications (ChangeEvents fw none fi0 (pre ++ (⟨.event evt, .error err⟩ :: rest))).trace
      = notifications (ChangeEvents fw none fi0 pre).trace ++ [.Deleted] ∧
    (ChangeEvents fw none fi0 (pre ++ (⟨.event evt, .error err⟩ :: rest))).out = .returned () ∧
    (ChangeEvents fw none fi0 (pre ++ (⟨.event evt, .error err⟩ :: rest))).pending = rest ∧
    (ChangeEvents fw none fi0 (pre ++ (⟨.event evt, .error err⟩ :: rest))).trace
      = (ChangeEvents fw none fi0 pre).trace ++ [.stat, .notify .Deleted, .close, .removeWatch] ∧
    (ChangeEvents fw none fi0 (pre ++ (⟨.event evt, .error err⟩ :: rest))).fw
      = (ChangeEvents fw none fi0 pre).fw := by
  rw [ChangeEvents_append _ _ _ _ hrun, eventLoop_modify_notExist _ evt err hd hr hm hne]
  simp [notifications_append, notifications]

/-- Witness of C4: the file vanished; a modify and a rename event are still
queued behind the modify event that finds it gone. -/
theorem C4_stat_not_found_terminates_witness :
    notifications (ChangeEvents ⟨"app.log", 0, ⟨0⟩⟩ none ⟨1000, ⟨0⟩⟩
        ([] ++ (⟨.event ⟨"app.log", false, false, true⟩, .error .NotExist⟩ ::
          [⟨.event ⟨"app.log", false, false, true⟩, .ok ⟨5, ⟨7⟩⟩⟩,
           ⟨.event ⟨"app.log", false, true, false⟩, .error .NotExist⟩]))).trace
      = notifications (ChangeEvents ⟨"app.log", 0, ⟨0⟩⟩ none ⟨1000, ⟨0⟩⟩ []).trace
          ++ [.Deleted] :=
  (C4_stat_not_found_terminates ⟨"app.log", 0, ⟨0⟩⟩ ⟨1000, ⟨0⟩⟩ []
    ⟨"app.log", false, false, true⟩ .NotExist
    [⟨.event ⟨"app.log", false, false, true⟩, .ok ⟨5, ⟨7⟩⟩⟩,
     ⟨.event ⟨"app.log", false, true, false⟩, .error .NotExist⟩]
    (by decide) rfl rfl rfl rfl).1

/-- C5: for every script fed to the `ChangeEvents` loop, the notifications
emitted are exactly the sequence the specification gives: each raw event, in
the order of the script and as long as the loop runs, contributes its own
notification (`Deleted` for delete and rename, `Deleted` or the size
classification for modify, nothing for the other categories).  Each event
yields at most one notification, so a script of `N` entries yields at most `N`,
and the notification of a further entry `t` comes after all earlier ones.  An
event that is neither delete, rename nor modify adds no notification, calls no
stat and changes neither the watcher nor the state of the loop.  For instance,
from size 1000: rename, modify to 200, an ignored event, modify to 300, modify
with the file gone, rename yields `Deleted, Truncated, Modified, Deleted`. -/
theorem C5_notifications_in_event_order (fw : InotifyFileWatcher) (fi0 : FileInfo)
    (script : List Tick) (t : Tick) :
    notifications (ChangeEvents fw none fi0 script).trace
      = specSequence fi0.Size fi0.ModTime script ∧
    (∀ (evt : FileEvent) (st : StatResult),
      notifications (loopBody (ChangeEvents fw none fi0 script).fw ⟨.event evt, st⟩).effects
        = (specEventNotification (ChangeEvents fw none fi0 script).fw.Size
            (ChangeEvents fw none fi0 script).fw.ModTime evt st).toList) ∧
    notifications (ChangeEvents fw none fi0 (script ++ [t])).trace
      = notifications (ChangeEvents fw none fi0 script).trace ++
          (if (ChangeEvents fw none fi0 script).out = .blocked
           then notifications (loopBody (ChangeEvents fw none fi0 script).fw t).effects
           else []) ∧
    (notifications (loopBody (ChangeEvents fw none fi0 script).fw t).effects).length ≤ 1 ∧
    (notifications (ChangeEvents fw none fi0 script).trace).length ≤ script.length ∧
    (∀ (name : String) (st : StatResult),
      notifications (ChangeEvents fw none fi0
          (script ++ [⟨.event ⟨name, false, false, false⟩, st⟩])).trace
        = notifications (ChangeEvents fw none fi0 script).trace ∧
      statCalls (ChangeEvents fw none fi0
          (script ++ [⟨.event ⟨name, false, false, false⟩, st⟩])).trace
        = statCalls (ChangeEvents fw none fi0 script).trace ∧
      (ChangeEvents fw none fi0 (script ++ [⟨.event ⟨name, false, false, false⟩, st⟩])).fw
        = (ChangeEvents fw none fi0 script).fw ∧
      (ChangeEvents fw none fi0 (script ++ [⟨.event ⟨name, false, false, false⟩, st⟩])).out
        = (ChangeEvents fw none fi0 script).out) ∧
    (∀ T T1 T2 : Time,
      notifications (ChangeEvents fw none ⟨1000, T⟩
          [⟨.event ⟨fw.Filename, false, true, false⟩, .error .NotExist⟩,
           ⟨.event ⟨fw.Filename, false, false, true⟩, .ok ⟨200, T1⟩⟩,
           ⟨.event ⟨fw.Filename, false, false, false⟩, .ok ⟨200, T1⟩⟩,
           ⟨.event ⟨fw.Filename, false, false, true⟩, .ok ⟨300, T2⟩⟩,
           ⟨.event ⟨fw.Filename, false, false, true⟩, .error .NotExist⟩,
           ⟨.event ⟨fw.Filename, false, true, false⟩, .error .NotExist⟩]).trace
        = [.Deleted, .Truncated, .Modified, .Deleted]) := by
  have hspec : ∀ (f0 : FileInfo) (sc : List Tick),
      notifications (ChangeEvents fw none f0 sc).trace = specSequence f0.Size f0.ModTime sc := by
    intro f0 sc
    simp only [ChangeEvents, notifications]
    rw [eventLoop_spec]
  refine ⟨hspec fi0 script, fun evt st => (loopBody_spec _ evt st).1, ?_,
    loopBody_notifications_le_one _ _, ?_, ?_, ?_⟩
  · by_cases hb : (ChangeEvents fw none fi0 script).out = .blocked
    · rw [if_pos hb, ChangeEvents_append _ _ _ _ hb, eventLoop_single]
      cases hc : (loopBody (ChangeEvents fw none fi0 script).fw t).ctl <;>
        simp [notifications_append, notifications, eventLoop]
    · rw [if_neg hb, ChangeEvents_append_done _ _ _ _ hb]
      simp
  · have := eventLoop_notifications_length { fw with Size := fi0.Size, ModTime := fi0.ModTime }
      script
    simpa [ChangeEvents, notifications] using this
  · intro name st
    by_cases hb : (ChangeEvents fw none fi0 script).out = .blocked
    · rw [ChangeEvents_append _ _ _ _ hb, eventLoop_ignored _ _ _ rfl rfl rfl]
      simp [eventLoop, hb]
    · rw [ChangeEvents_append_done _ _ _ _ hb]
      simp
  · intro T T1 T2
    rw [hspec]
    simp [specSequence, specEventNotification, specEventContinues, specEventSize, specClassify,
      IsNotExist]

/-- Witness of C5: the script of the example, run from size 1000 at time 0; the
two entries behind the modify event that finds the file gone stay unread. -/
theorem C5_notifications_in_event_order_witness :
    notifications (ChangeEvents ⟨"app.log", 0, ⟨0⟩⟩ none ⟨1000, ⟨0⟩⟩
        [⟨.event ⟨"app.log", false, true, false⟩, .error .NotExist⟩,
         ⟨.event ⟨"app.log", false, false, true⟩, .ok ⟨200, ⟨5⟩⟩⟩,
         ⟨.event ⟨"app.log", false, false, false⟩, .ok ⟨200, ⟨5⟩⟩⟩,
         ⟨.event ⟨"app.log", false, false, true⟩, .ok ⟨300, ⟨9⟩⟩⟩,
         ⟨.event ⟨"app.log", false, false, true⟩, .error .NotExist⟩,
         ⟨.event ⟨"app.log", false, true, false⟩, .error .NotExist⟩]).trace
      = [.Deleted, .Truncated, .Modified, .Deleted] :=
  (C5_notifications_in_event_order ⟨"app.log", 0, ⟨0⟩⟩ ⟨1000, ⟨0⟩⟩ []
    ⟨.closed, .error .NotExist⟩).2.2.2.2.2.2 ⟨0⟩ ⟨5⟩ ⟨9⟩

/-- C6: in `ChangeEvents`, the tracked modification time is the one of the
caller-supplied `FileInfo` after every script, whatever the events; hence a
modify event whose stat succeeds is classified with the elapsed time measured
from that initial modification time. -/
theorem C6_ModTime_never_updated (fw : InotifyFileWatcher) (fi0 : FileInfo)
    (script : List Tick) :
    (ChangeEvents fw none fi0 script).fw.ModTime = fi0.ModTime ∧
    (∀ (evt : FileEvent) (fi : FileInfo),
      (ChangeEvents fw none fi0 script).out = .blocked →
      evt.IsDelete = false → evt.IsRename = false → evt.IsModify = true →
      notifications (ChangeEvents fw none fi0 (script ++ [⟨.event evt, .ok fi⟩])).trace
        = notifications (ChangeEvents fw none fi0 script).trace ++
            [specClassify (ChangeEvents fw none fi0 script).fw.Size fi.Size fi.ModTime
              fi0.ModTime]) := by
  have h1 : (ChangeEvents fw none fi0 script).fw.ModTime = fi0.ModTime := by
    simp only [ChangeEvents]
    rw [eventLoop_ModTime]
  refine ⟨h1, ?_⟩
  intro evt fi hb hd hr hm
  rw [ChangeEvents_append _ _ _ _ hb]
  simp only [notifications_append]
  rw [(eventLoop_modify_ok _ evt fi hd hr hm).2.2.1, h1]

/-- Witness of C6: after a modify event stamped two days after the seed, a
second one a day later still is measured from the seed. -/
theorem C6_ModTime_never_updated_witness :
    (ChangeEvents ⟨"app.log", 0, ⟨0⟩⟩ none ⟨50, ⟨0⟩⟩
        [⟨.event ⟨"app.log", false, false, true⟩, .ok ⟨50, ⟨172800000000000⟩⟩⟩]).fw.ModTime
      = ⟨0⟩ ∧
    notifications (ChangeEvents ⟨"app.log", 0, ⟨0⟩⟩ none ⟨50, ⟨0⟩⟩
        ([⟨.event ⟨"app.log", false, false, true⟩, .ok ⟨50, ⟨172800000000000⟩⟩⟩]
          ++ [⟨.event ⟨"app.log", false, false, true⟩, .ok ⟨50, ⟨172800000000001⟩⟩⟩])).trace
      = notifications (ChangeEvents ⟨"app.log", 0, ⟨0⟩⟩ none ⟨50, ⟨0⟩⟩
          [⟨.event ⟨"app.log", false, false, true⟩, .ok ⟨50, ⟨172800000000000⟩⟩⟩]).trace
        ++ [specClassify (ChangeEvents ⟨"app.log", 0, ⟨0⟩⟩ none ⟨50, ⟨0⟩⟩
              [⟨.event ⟨"app.log", false, false, true⟩,
                .ok ⟨50, ⟨172800000000000⟩⟩⟩]).fw.Size 50 ⟨172800000000001⟩ ⟨0⟩] :=
  have h := C6_ModTime_never_updated ⟨"app.log", 0, ⟨0⟩⟩ ⟨50, ⟨0⟩⟩
    [⟨.event ⟨"app.log", false, false, true⟩, .ok ⟨50, ⟨172800000000000⟩⟩⟩]
  ⟨h.1, h.2 ⟨"app.log", false, false, true⟩ ⟨50, ⟨172800000000001⟩⟩ (by decide) rfl rfl rfl⟩

/-- C10: in `ChangeEvents`, a modify event whose stat fails for a reason other
than "not found", arriving while the loop is running, is fatal: no notification
is emitted for it or after it, nothing of the following script is read, only
the stat call is added to the trace (no deferred call runs), and the outcome is
`fatal` with the stat error, which differs from the outcome `returned` that a
"not found" stat, a cancellation or a closed event channel produce at the same
point. -/
theorem C10_stat_failure_is_fatal (fw : InotifyFileWatcher) (fi0 : FileInfo)
    (pre : List Tick) (evt : FileEvent) (err : GoError) (rest : List Tick)
    (hrun : (ChangeEvents fw none fi0 pre).out = .blocked)
    (hd : evt.IsDelete = false) (hr : evt.IsRename = false) (hm : evt.IsModify = true)
    (hne : IsNotExist (some err) = false) :
    notifications (ChangeEvents fw none fi0 (pre ++ (⟨.event evt, .error err⟩ :: rest))).trace
      = notifications (ChangeEvents fw none fi0 pre).trace ∧
    (ChangeEvents fw none fi0 (pre ++ (⟨.event evt, .error err⟩ :: rest))).pending = rest ∧
    (ChangeEvents fw none fi0 (pre ++ (⟨.event evt, .error err⟩ :: rest))).trace
      = (ChangeEvents fw none fi0 pre).trace ++ [.stat] ∧
    (ChangeEvents fw none fi0 (pre ++ (⟨.event evt, .error err⟩ :: rest))).out = .fatal err ∧
    (ChangeEvents fw none fi0 (pre ++ (⟨.event evt, .error err⟩ :: rest))).out ≠ .returned () ∧
    (ChangeEvents fw none fi0 (pre ++ (⟨.event evt, .error .NotExist⟩ :: rest))).out
      = .returned () ∧
    (∀ st : StatResult,
      (ChangeEvents fw none fi0 (pre ++ (⟨.dying, st⟩ :: rest))).out = .returned () ∧
      (ChangeEvents fw none fi0 (pre ++ (⟨.closed, st⟩ :: rest))).out = .returned ()) := by
  refine ⟨?_, ?_, ?_, ?_, ?_, ?_, ?_⟩
  · rw [ChangeEvents_append _ _ _ _ hrun, eventLoop_modify_fatal _ evt err hd hr hm hne]
    simp [notifications_append, notifications]
  · rw [ChangeEvents_append _ _ _ _ hrun, eventLoop_modify_fatal _ evt err hd hr hm hne]
  · rw [ChangeEvents_append _ _ _ _ hrun, eventLoop_modify_fatal _ evt err hd hr hm hne]
  · rw [ChangeEvents_append _ _ _ _ hrun, eventLoop_modify_fatal _ evt err hd hr hm hne]
  · rw [ChangeEvents_append _ _ _ _ hrun, eventLoop_modify_fatal _ evt err hd hr hm hne]
    simp
  · rw [ChangeEvents_append _ _ _ _ hrun, eventLoop_modify_notExist _ evt .NotExist hd hr hm rfl]
  · intro st
    constructor
    · rw [ChangeEvents_append _ _ _ _ hrun, eventLoop_dying]
    · rw [ChangeEvents_append _ _ _ _ hrun, eventLoop_closed]

/-- Witness of C10: the stat fails with a permission error while a modify event
is still queued. -/
theorem C10_stat_failure_is_fatal_witness :
    (ChangeEvents ⟨"app.log", 0, ⟨0⟩⟩ none ⟨1000, ⟨0⟩⟩
        ([] ++ (⟨.event ⟨"app.log", false, false, true⟩, .error (.Other 13)⟩ ::
          [⟨.event ⟨"app.log", false, false, true⟩, .ok ⟨5, ⟨7⟩⟩⟩]))).out
      = .fatal (.Other 13) :=
  (C10_stat_failure_is_fatal ⟨"app.log", 0, ⟨0⟩⟩ ⟨1000, ⟨0⟩⟩ []
    ⟨"app.log", false, false, true⟩ (.Other 13)
    [⟨.event ⟨"app.log", false, false, true⟩, .ok ⟨5, ⟨7⟩⟩⟩]
    (by decide) rfl rfl rfl rfl).2.2.2.1

/-- C7: in `BlockUntilExists`, once the subscription to the parent directory
has succeeded, a stat that finds the file makes the call return `nil`, and a
stat that fails for a reason other than "not found" makes it return exactly
that error; in both cases the trace is subscribe, stat, unsubscribe and the
whole script of pending events is left unread. -/
theorem C7_existence_check_decides (abs : String → Except GoError String)
    (fw : InotifyFileWatcher) (script : List Recv) :
    (∀ fi : FileInfo,
      BlockUntilExists abs fw none (.ok fi) script
        = ⟨.returned none, [.watchFlags, .stat, .removeWatch], script⟩) ∧
    (∀ err : GoError, IsNotExist (some err) = false →
      BlockUntilExists abs fw none (.error err) script
        = ⟨.returned (some err), [.watchFlags, .stat, .removeWatch], script⟩) := by
  constructor
  · intro fi
    simp [BlockUntilExists, StatResult.err, IsNotExist]
  · intro err h
    simp [BlockUntilExists, StatResult.err, h]

/-- Witness of C7: the stat fails with a permission error while a matching
create event is pending. -/
theorem C7_existence_check_decides_witness :
    BlockUntilExists (fun p => .ok p) ⟨"/var/log/app.log", 0, ⟨0⟩⟩ none (.error (.Other 13))
        [.event ⟨"/var/log/app.log", false, false, false⟩]
      = ⟨.returned (some (.Other 13)), [.watchFlags, .stat, .removeWatch],
          [.event ⟨"/var/log/app.log", false, false, false⟩]⟩ :=
  (C7_existence_check_decides (fun p => .ok p) ⟨"/var/log/app.log", 0, ⟨0⟩⟩
    [.event ⟨"/var/log/app.log", false, false, false⟩]).2 (.Other 13) rfl

/-- C8: in the wait loop of `BlockUntilExists` (subscription succeeded, file
not found at the initial check), with `tgt` the absolute target path: after any
events whose absolute names differ from `tgt` the call has not returned; at the
first event whose absolute name equals `tgt` it returns `nil`, leaving what
follows unread; and if instead the event channel is closed it returns the error
"inotify watcher has been closed", which is neither `nil` nor
`tomb.ErrDying`. -/
theorem C8_wait_loop (abs : String → Except GoError String) (fw : InotifyFileWatcher)
    (tgt : String) (notFound : GoError) (pre : List FileEvent)
    (hnf : IsNotExist (some notFound) = true)
    (htgt : abs fw.Filename = .ok tgt)
    (hpre : ∀ e ∈ pre, ∃ a, abs e.Name = .ok a ∧ a ≠ tgt) :
    (BlockUntilExists abs fw none (.error notFound) (pre.map .event)).out = .blocked ∧
    (∀ (e : FileEvent) (rest : List Recv), abs e.Name = .ok tgt →
      (BlockUntilExists abs fw none (.error notFound)
          (pre.map .event ++ .event e :: rest)).out = .returned none ∧
      (BlockUntilExists abs fw none (.error notFound)
          (pre.map .event ++ .event e :: rest)).pending = rest) ∧
    (∀ rest : List Recv,
      (BlockUntilExists abs fw none (.error notFound)
          (pre.map .event ++ .closed :: rest)).out
        = .returned (some (.Errorf "inotify watcher has been closed")) ∧
      (BlockUntilExists abs fw none (.error notFound)
          (pre.map .event ++ .closed :: rest)).out ≠ .returned none ∧
      (BlockUntilExists abs fw none (.error notFound)
          (pre.map .event ++ .closed :: rest)).out ≠ .returned (some .ErrDying)) := by
  refine ⟨?_, ?_, ?_⟩
  · have h := waitLoop_skip abs fw tgt pre [] htgt hpre
    rw [List.append_nil] at h
    rw [(BlockUntilExists_wait abs fw notFound hnf _).1, h]
    rfl
  · intro e rest he
    rw [(BlockUntilExists_wait abs fw notFound hnf _).1,
      (BlockUntilExists_wait abs fw notFound hnf _).2,
      waitLoop_skip abs fw tgt pre _ htgt hpre]
    simp [waitLoop, he, htgt]
  · intro rest
    rw [(BlockUntilExists_wait abs fw notFound hnf _).1,
      waitLoop_skip abs fw tgt pre _ htgt hpre]
    simp [waitLoop]

/-- Witness of C8: another file is created in the directory, then the
target. -/
theorem C8_wait_loop_witness :
    (BlockUntilExists (fun p => .ok p) ⟨"/var/log/app.log", 0, ⟨0⟩⟩ none (.error .NotExist)
        ([⟨"/var/log/other.log", false, false, false⟩].map .event
          ++ .event ⟨"/var/log/app.log", false, false, false⟩ :: [.closed])).out
      = .returned none :=
  ((C8_wait_loop (fun p => .ok p) ⟨"/var/log/app.log", 0, ⟨0⟩⟩ "/var/log/app.log" .NotExist
    [⟨"/var/log/other.log", false, false, false⟩] rfl rfl
    (by
      intro e he
      rw [List.mem_singleton] at he
      subst he
      exact ⟨"/var/log/other.log", rfl, by decide⟩)).2.1
    ⟨"/var/log/app.log", false, false, false⟩ [.closed] rfl).1

/-- C9, as stated, fails: the `select` gives `t.Dying()` no priority.  In the
timeline below the token is raised first, then the event arrives, and only then
does the `select` run; both cases are ready and it may take the event.
`BlockUntilExists` (file not found at the initial check) then returns `nil`,
not `tomb.ErrDying`, and the `ChangeEvents` loop emits `Truncated` and stores
the new size. -/
theorem C9_cancellation_has_no_priority :
    canHappen ⟨false, [], false⟩
        [.raise, .arrive ⟨"/var/log/app.log", false, false, true⟩,
         .take (.event ⟨"/var/log/app.log", false, false, true⟩)] = true ∧
    readyCases ⟨true, [⟨"/var/log/app.log", false, false, true⟩], false⟩
      = [.event ⟨"/var/log/app.log", false, false, true⟩, .dying] ∧
    (BlockUntilExists (fun p => .ok p) ⟨"/var/log/app.log", 0, ⟨0⟩⟩ none (.error .NotExist)
        (taken [.raise, .arrive ⟨"/var/log/app.log", false, false, true⟩,
          .take (.event ⟨"/var/log/app.log", false, false, true⟩)])).out = .returned none ∧
    (BlockUntilExists (fun p => .ok p) ⟨"/var/log/app.log", 0, ⟨0⟩⟩ none (.error .NotExist)
        (taken [.raise, .arrive ⟨"/var/log/app.log", false, false, true⟩,
          .take (.event ⟨"/var/log/app.log", false, false, true⟩)])).out
      ≠ .returned (some .ErrDying) ∧
    notifications (ChangeEvents ⟨"/var/log/app.log", 0, ⟨0⟩⟩ none ⟨1000, ⟨5⟩⟩
        ((taken [.raise, .arrive ⟨"/var/log/app.log", false, false, true⟩,
          .take (.event ⟨"/var/log/app.log", false, false, true⟩)]).map
            (fun r => ⟨r, .ok ⟨200, ⟨6⟩⟩⟩))).trace = [.Truncated] ∧
    (ChangeEvents ⟨"/var/log/app.log", 0, ⟨0⟩⟩ none ⟨1000, ⟨5⟩⟩
        ((taken [.raise, .arrive ⟨"/var/log/app.log", false, false, true⟩,
          .take (.event ⟨"/var/log/app.log", false, false, true⟩)]).map
            (fun r => ⟨r, .ok ⟨200, ⟨6⟩⟩⟩))).fw.Size = 200 := by
  refine ⟨by decide, by decide, by decide, by decide, by decide, by decide⟩

/-- C9, amended: cancellation taken before any matching event.  When the token
is raised and no raw event is ready (nothing queued, channel open), the only
case the `select` can take is `t.Dying()`; when an event is ready as well, both
cases can be taken.  Whenever the `select` takes the cancellation case
`BlockUntilExists` (subscription succeeded, file not found at the initial
check), after any events whose absolute names differ from the absolute target
path, returns `tomb.ErrDying`, not `nil`; and the `ChangeEvents` loop, after
any events of no handled category, returns having emitted no notification,
with the tracked size and modification time equal to the seeded values, and
reads nothing further. -/
theorem C9_cancellation (abs : String → Except GoError String) (fw : InotifyFileWatcher)
    (tgt : String) (notFound : GoError) (pre : List FileEvent) (rest : List Recv)
    (fi0 : FileInfo) (ign : List Tick) (st : StatResult) (rest2 : List Tick)
    (hnf : IsNotExist (some notFound) = true)
    (htgt : abs fw.Filename = .ok tgt)
    (hpre : ∀ e ∈ pre, ∃ a, abs e.Name = .ok a ∧ a ≠ tgt)
    (hign : ∀ t ∈ ign, ∃ evt, t.recv = .event evt ∧ evt.IsDelete = false ∧
      evt.IsRename = false ∧ evt.IsModify = false) :
    ((BlockUntilExists abs fw none (.error notFound) (pre.map .event ++ .dying :: rest)).out
        = .returned (some .ErrDying) ∧
      (BlockUntilExists abs fw none (.error notFound) (pre.map .event ++ .dying :: rest)).out
        ≠ .returned none ∧
      (BlockUntilExists abs fw none (.error notFound)
          (pre.map .event ++ .dying :: rest)).pending = rest) ∧
    ((ChangeEvents fw none fi0 (ign ++ ⟨.dying, st⟩ :: rest2)).out = .returned () ∧
      notifications (ChangeEvents fw none fi0 (ign ++ ⟨.dying, st⟩ :: rest2)).trace = [] ∧
      (ChangeEvents fw none fi0 (ign ++ ⟨.dying, st⟩ :: rest2)).fw.Size = fi0.Size ∧
      (ChangeEvents fw none fi0 (ign ++ ⟨.dying, st⟩ :: rest2)).fw.ModTime = fi0.ModTime ∧
      (ChangeEvents fw none fi0 (ign ++ ⟨.dying, st⟩ :: rest2)).pending = rest2) ∧
    (∀ c : Channels, c.dying = true → c.queued = [] → c.closed = false →
      readyCases c = [.dying]) ∧
    (∀ (c : Channels) (evt : FileEvent) (q : List FileEvent),
      c.dying = true → c.queued = evt :: q → readyCases c = [.event evt, .dying]) := by
  refine ⟨?_, ?_, ?_, ?_⟩
  · rw [(BlockUntilExists_wait abs fw notFound hnf _).1,
      (BlockUntilExists_wait abs fw notFound hnf _).2,
      waitLoop_skip abs fw tgt pre _ htgt hpre]
    simp [waitLoop]
  · simp only [ChangeEvents]
    rw [eventLoop_ignored_list _ ign _ hign, eventLoop_dying]
    simp [notifications]
  · intro c hd hq hc
    simp [readyCases, hd, hq, hc]
  · intro c evt q hd hq
    simp [readyCases, hd, hq]

/-- Witness of C9: one non-matching create event, respectively one attribute
event of no handled category, then the cancellation case with a matching event
still queued. -/
theorem C9_cancellation_witness :
    (BlockUntilExists (fun p => .ok p) ⟨"/var/log/app.log", 0, ⟨0⟩⟩ none (.error .NotExist)
        ([⟨"/var/log/other.log", false, false, false⟩].map .event
          ++ .dying :: [.event ⟨"/var/log/app.log", false, false, false⟩])).out
      = .returned (some .ErrDying) ∧
    notifications (ChangeEvents ⟨"/var/log/app.log", 0, ⟨0⟩⟩ none ⟨1000, ⟨5⟩⟩
        ([⟨.event ⟨"/var/log/app.log", false, false, false⟩, .ok ⟨10, ⟨6⟩⟩⟩]
          ++ ⟨.dying, .ok ⟨10, ⟨6⟩⟩⟩ ::
            [⟨.event ⟨"/var/log/app.log", false, false, true⟩, .ok ⟨10, ⟨6⟩⟩⟩])).trace = [] ∧
    readyCases ⟨true, [], false⟩ = [.dying] :=
  have h := C9_cancellation (fun p => .ok p) ⟨"/var/log/app.log", 0, ⟨0⟩⟩ "/var/log/app.log"
    .NotExist [⟨"/var/log/other.log", false, false, false⟩]
    [.event ⟨"/var/log/app.log", false, false, false⟩] ⟨1000, ⟨5⟩⟩
    [⟨.event ⟨"/var/log/app.log", false, false, false⟩, .ok ⟨10, ⟨6⟩⟩⟩] (.ok ⟨10, ⟨6⟩⟩)
    [⟨.event ⟨"/var/log/app.log", false, false, true⟩, .ok ⟨10, ⟨6⟩⟩⟩] rfl rfl
    (by
      intro e he
      rw [List.mem_singleton] at he
      subst he
      exact ⟨"/var/log/other.log", rfl, by decide⟩)
    (by
      intro t ht
      rw [List.mem_singleton] at ht
      subst ht
      exact ⟨⟨"/var/log/app.log", false, false, false⟩, rfl, rfl, rfl, rfl⟩)
  ⟨h.1.1, h.2.1.2.1, h.2.2.1 ⟨true, [], false⟩ rfl rfl rfl⟩

end Watch
